import Mathlib

/-!
Verification development for the reviewed proof-assistant core
(term utilities, parser support, let-binding macros, fixed-size memory
pool, and the rewrite tactic engine).  Every definition is a shallow
embedding of the corresponding C++ function; stateful code is embedded by
explicit state passing, machine unsigned arithmetic by Nat with an
explicit modulus 2^32, and fallible code by Option / explicit result
variants.
-/

set_option maxHeartbeats 1000000

namespace Lean2

/-! ### Fixed-size memory pool (src/util/memory_pool.h)

The pool's free list is an intrusive singly-linked list threaded through
the first machine word of each recycled block.  We embed a block address
as a `Nat` and the pool state as the list of addresses on the free list
(front = head of the intrusive list).  `allocate` needs a fallback fresh
address for the `malloc` branch; it is passed explicitly. -/

abbrev Ptr := Nat

structure memory_pool where
  free_list : List Ptr
deriving DecidableEq

def memory_pool.recycle (p : memory_pool) (ptr : Ptr) : memory_pool :=
  { free_list := ptr :: p.free_list }

def memory_pool.allocate (p : memory_pool) (fresh : Ptr) : Ptr × memory_pool :=
  match p.free_list with
  | r :: rest => (r, { free_list := rest })
  | [] => (fresh, p)

/-! ### Universe levels

The level data model (kernel/level, outside the reviewed sources) as the
spec describes it: zero, successor, pairwise maximum, named parameter,
metavariable. -/

inductive level where
  | zero
  | succ (l : level)
  | max (a b : level)
  | param (n : String)
  | meta (n : String)
deriving DecidableEq

def mk_level_zero : level := level.zero

def mk_level_one : level := level.succ level.zero

/-- Modelled from the spec: kernel `is_not_zero` (not under the reviewed
sources) decides whether a level is provably never concretely zero — a
successor always is; a maximum is when either side is; zero, parameters
and metavariables are not. -/
def is_not_zero : level → Bool
  | level.zero => false
  | level.succ _ => true
  | level.max a b => is_not_zero a || is_not_zero b
  | level.param _ => false
  | level.meta _ => false

/-- Modelled from the spec: kernel `normalize` (not under the reviewed
sources) puts a level in canonical form; the fragment needed here drops
literal-zero arguments of a maximum and leaves other levels as they are. -/
def normalize : level → level
  | level.max a b =>
    match normalize a, normalize b with
    | level.zero, b' => b'
    | a', level.zero => a'
    | a', b' => level.max a' b'
  | level.succ a => level.succ (normalize a)
  | l => l

/-- Embedding of `mk_result_level` (parser utilities): the environment is
represented by its impredicativity flag, the only part consulted. -/
def mk_result_level (impredicative : Bool) (r_lvls : List level) : level :=
  match r_lvls with
  | [] => if impredicative then mk_level_one else mk_level_zero
  | l0 :: rest =>
    let r := rest.foldl level.max l0
    let r := normalize r
    if is_not_zero r then normalize r
    else if impredicative then normalize (level.max r mk_level_one)
    else normalize r

/-! ### Terms

A minimal term type covering the variants the parser-utility claims
need.  `explicit_mark` is the explicit-application marker macro
(library/explicit, declared in the reviewed headers, implemented outside
them; modelled from the spec as a one-argument macro wrapper, a node
distinct from an application) and `as_atomic` is the "as-atomic"
annotation macro wrapper, likewise modelled from the spec. -/

inductive expr where
  | var (i : Nat)
  | const (n : String) (ls : List level)
  | local_const (n : String)
  | app (f a : expr)
  | explicit_mark (e : expr)
  | as_atomic (e : expr)
deriving DecidableEq

def is_app : expr → Bool
  | expr.app _ _ => true
  | _ => false

def is_constant : expr → Bool
  | expr.const _ _ => true
  | _ => false

def is_local : expr → Bool
  | expr.local_const _ => true
  | _ => false

/-- Modelled from the spec: `is_explicit` recognizes the
explicit-application marker macro. -/
def is_explicit : expr → Bool
  | expr.explicit_mark _ => true
  | _ => false

/-- Modelled from the spec: `get_explicit_arg` unwraps the marker
(precondition `is_explicit`; total here, returning the input otherwise). -/
def get_explicit_arg : expr → expr
  | expr.explicit_mark e => e
  | e => e

/-- Modelled from the spec: recognizer for the as-atomic annotation. -/
def is_as_atomic : expr → Bool
  | expr.as_atomic _ => true
  | _ => false

/-- Modelled from the spec: unwrap the as-atomic annotation
(precondition `is_as_atomic`; total here, returning the input otherwise). -/
def get_as_atomic_arg : expr → expr
  | expr.as_atomic e => e
  | e => e

/-- Kernel `mk_app` over an argument list: left-nested application. -/
def mk_app_list (f : expr) (args : List expr) : expr :=
  args.foldl expr.app f

def get_app_args_aux : expr → List expr → expr × List expr
  | expr.app f a, acc => get_app_args_aux f (a :: acc)
  | e, acc => (e, acc)

/-- Kernel `get_app_args`: head of the application spine together with
the argument list. -/
def get_app_args (e : expr) : expr × List expr :=
  get_app_args_aux e []

/-! ### Local references (parser utilities `mk_local_ref` / `is_local_ref`) -/

def mk_local_ref (n : String) (ctx_ls : List level) (ctx_params : List expr) : expr :=
  expr.as_atomic (mk_app_list (expr.explicit_mark (expr.const n ctx_ls))
    (ctx_params.map expr.explicit_mark))

def is_local_ref (e : expr) : Bool :=
  if !is_as_atomic e then false
  else
    let imp_arg := get_as_atomic_arg e
    if !is_app imp_arg then false
    else
      let fa := get_app_args imp_arg
      is_explicit fa.1 && is_constant (get_explicit_arg fa.1) &&
        fa.2.all (fun l => is_explicit l && is_local (get_explicit_arg l))

/-! ### Let-value macro (src/library/let.cpp)

Each `mk_let_value` call mints an instance id from a process-global
`atomic<unsigned>` counter (post-increment).  We embed the global mint
sequence by its position: the k-th call of the process (0-based) obtains
the unsigned counter value `k % 2^32`.  Macro-node equality compares the
definition cells (by minted id) and the argument structurally. -/

def unsigned_card : Nat := 2 ^ 32

def next_let_value_id (k : Nat) : Nat := k % unsigned_card

structure let_value_cell where
  id : Nat
deriving DecidableEq

def let_value_cell_eq (a b : let_value_cell) : Bool :=
  a.id == b.id

structure let_value_expr where
  cell : let_value_cell
  arg  : expr
deriving DecidableEq

/-- `mk_let_value` performed as the k-th mint of the process. -/
def mk_let_value (k : Nat) (e : expr) : let_value_expr :=
  { cell := { id := next_let_value_id k }, arg := e }

/-- Macro-expression equality for two let-value nodes: equal definition
cells (`let_value_definition_cell::operator==`, id comparison) and equal
argument lists (a single argument, compared structurally). -/
def let_value_expr_eq (a b : let_value_expr) : Bool :=
  let_value_cell_eq a.cell b.cell && decide (a.arg = b.arg)

/-! ### Iteration-ceiling error message (rewrite_tactic.cpp)

`throw_max_iter_exceeded` renders the message below; the option itself is
registered in `initialize_rewrite_tactic` under `rewriter.max_iter` and
read back under that same name by `get_rewriter_max_iterations`. -/

def message_option_name : String := "rewrite.max_iter"

def registered_max_iter_option_name : String := "rewriter.max_iter"

def throw_max_iter_exceeded_message (threshold : Nat) : String :=
  "rewrite tactic failed, maximum number of iterations exceeded (current threshold: "
    ++ toString threshold
    ++ ", increase the threshold by setting option \x27"
    ++ message_option_name ++ "\x27)"

/-! ### `sort_locals` (parser utilities)

The parser is consulted through three queries: whether a local is
declared in its local table, whether it is a section/context variable,
and its declaration index.  The input `expr_struct_set` is embedded by
its iteration sequence (a list).  `std::sort` establishes the
comparator's order; we embed it as an insertion sort driven by the exact
comparator of the source. -/

structure parser_ctx where
  is_local_decl : expr → Bool
  is_local_variable : expr → Bool
  get_local_index : expr → Nat

/-- The comparator passed to `std::sort` by `sort_locals`: `p1` is placed
before `p2` when `p1` is not a variable and `p2` is, never the other way
around, and otherwise by declaration index. -/
def sort_locals_before (p : parser_ctx) (p1 p2 : expr) : Bool :=
  let is_var1 := p.is_local_variable p1
  let is_var2 := p.is_local_variable p2
  if !is_var1 && is_var2 then true
  else if is_var1 && !is_var2 then false
  else decide (p.get_local_index p1 < p.get_local_index p2)

def sort_insert (lt : expr → expr → Bool) (a : expr) : List expr → List expr
  | [] => [a]
  | b :: bs => if lt b a then b :: sort_insert lt a bs else a :: b :: bs

def insertion_sort (lt : expr → expr → Bool) : List expr → List expr
  | [] => []
  | a :: as => sort_insert lt a (insertion_sort lt as)

def sort_locals (locals : List expr) (p : parser_ctx) : List expr :=
  insertion_sort (sort_locals_before p) (locals.filter p.is_local_decl)

/-! ### `rewrite_fn::reduce` (rewrite_tactic.cpp)

The normalizer (kernel `normalize` through a `rewriter_converter`) is
abstracted as an oracle returning the normalized term, whether some
constant of the unfold list was actually unfolded (the converter sets the
`unfolded` flag when it declares a listed constant non-opaque), and
whether residual unification constraints were produced.  The control
flow of `reduce` itself is translated exactly: the flag starts true iff
the unfold list is empty, and the call fails when the final flag is false
or constraints remain. -/

structure normalizer where
  run : expr → List String → expr × Bool × Bool

def reduce (nrm : normalizer) (e : expr) (to_unfold : List String) : Option expr :=
  let unfolded := to_unfold.isEmpty
  let rcs := nrm.run e to_unfold
  let unfolded := unfolded || rcs.2.1
  if !unfolded || rcs.2.2 then none
  else some rcs.1

/-! ### `rewrite_fn::process_rewrite_step` and `rewrite_fn::operator()`

The engine state (current goal, local context view and accumulated
substitution, all destructively updated by one successful application) is
abstracted as a state type `σ`; a single `process_rewrite_single_step`
call is an oracle `σ → Option σ` — `some s'` when it returned true having
updated the state to `s'`, `none` when it returned false leaving the
state unchanged.  `process_rewrite_step`'s repetition loops and ceiling
checks, and `operator()`'s per-step dispatch and exception construction,
are translated exactly. -/

inductive multiplicity where
  | Once
  | AtMostN
  | ExactlyN
  | ZeroOrMore
  | OneOrMore
deriving DecidableEq

inductive step_res (σ : Type) where
  | ret (b : Bool) (s : σ)
  | max_iter_exceeded
deriving DecidableEq

/-- One of the counted `for` loops of `process_rewrite_step`:
`Sum.inl s` means every iteration applied successfully and the loop ran
to its bound leaving state `s`; `Sum.inr s` means an application failed
at state `s` and the loop was exited early. -/
def rw_for (step : σ → Option σ) : Nat → σ → σ ⊕ σ
  | 0, s => Sum.inl s
  | n + 1, s =>
    match step s with
    | some s' => rw_for step n s'
    | none => Sum.inr s

/-- `rewrite_fn::check_max_iter`: throw iff the iteration count reached
the ceiling.  Here it is the condition under which the loop epilogue
raises the ceiling-exceeded error. -/
def check_max_iter_throws (i max_iter : Nat) : Bool :=
  decide (i ≥ max_iter)

def process_rewrite_step (step : σ → Option σ) (mult : multiplicity)
    (num : Nat) (max_iter : Nat) (s : σ) : step_res σ :=
  match mult with
  | multiplicity.Once =>
    match step s with
    | some s' => step_res.ret true s'
    | none => step_res.ret false s
  | multiplicity.AtMostN =>
    match rw_for step (min num max_iter) s with
    | Sum.inr s' => step_res.ret true s'
    | Sum.inl s' =>
      if check_max_iter_throws (min num max_iter) max_iter then step_res.max_iter_exceeded
      else step_res.ret true s'
  | multiplicity.ExactlyN =>
    match rw_for step (min num max_iter) s with
    | Sum.inr s' => step_res.ret false s'
    | Sum.inl s' =>
      if check_max_iter_throws (min num max_iter) max_iter then step_res.max_iter_exceeded
      else step_res.ret true s'
  | multiplicity.ZeroOrMore =>
    match rw_for step max_iter s with
    | Sum.inr s' => step_res.ret true s'
    | Sum.inl _ => step_res.max_iter_exceeded
  | multiplicity.OneOrMore =>
    match step s with
    | none => step_res.ret false s
    | some s' =>
      match rw_for step max_iter s' with
      | Sum.inr s'' => step_res.ret true s''
      | Sum.inl _ => step_res.max_iter_exceeded

inductive tactic_result (σ : Type) where
  | finished (s : σ)
  | failed_exception (s : σ)
  | empty_seq
  | max_iter_error
deriving DecidableEq

/-- `rewrite_fn::operator()`: run the steps strictly in order, threading
the engine state.  A step returning false raises a tactic-failure
exception carrying the proof state rebuilt from the CURRENT goal and
substitution (`curr_ps` at rewrite_tactic.cpp:1358) when failure
reporting is enabled, and yields the empty successor sequence otherwise;
the ceiling error propagates. -/
def rewrite_tac_steps (report_failure : Bool) :
    List (σ → step_res σ) → σ → tactic_result σ
  | [], s => tactic_result.finished s
  | el :: els, s =>
    match el s with
    | step_res.ret true s' => rewrite_tac_steps report_failure els s'
    | step_res.ret false s' =>
      if report_failure then tactic_result.failed_exception s'
      else tactic_result.empty_seq
    | step_res.max_iter_exceeded => tactic_result.max_iter_error

/-- Iterating the single-step oracle: `some sm` when `m` consecutive
applications from `s` all succeed and end in state `sm`. -/
def iterate_step (step : σ → Option σ) : Nat → σ → Option σ
  | 0, s => some s
  | m + 1, s =>
    match step s with
    | some s' => iterate_step step m s'
    | none => none

/-! ### `mk_rewrite_tactic` (rewrite_tactic.cpp:1386-1395) -/

structure proof_state (σ : Type) where
  goals : List σ
  report_failure : Bool
deriving DecidableEq

inductive tactic_seq_result (σ : Type) where
  | states (l : List (proof_state σ))
  | no_goal_error
deriving DecidableEq

/-- Embedding of `mk_rewrite_tactic`'s wrapper: with an empty goal list
it raises the no-goal error when the proof state enables failure
reporting (`throw_no_goal_if_enabled`, modelled from the spec — its body
is outside the reviewed sources) and otherwise returns the empty
successor sequence; with goals present it runs the rewrite engine,
abstracted here as the parameter `run`. -/
def mk_rewrite_tactic (run : proof_state σ → tactic_seq_result σ)
    (s : proof_state σ) : tactic_seq_result σ :=
  if s.goals.isEmpty then
    if s.report_failure then tactic_seq_result.no_goal_error
    else tactic_seq_result.states []
  else run s

/-! ## Theorems -/

/-- Claim C9: for every pool state and every block `b`, an `allocate`
immediately following `recycle(b)`, with no intervening `allocate`,
returns exactly the pointer `b` (the freshly recycled block heads the
intrusive free list and is popped first). -/
theorem allocate_after_recycle (p : memory_pool) (b : Ptr) (fresh : Ptr) :
    ((p.recycle b).allocate fresh).1 = b := rfl

/-- Claim C8: `mk_result_level` with no domain levels returns level 1
under an impredicative environment and level 0 under a predicative one;
with the singleton domain-level list containing level 0 it likewise
returns level 1 under impredicative and level 0 under predicative. -/
theorem mk_result_level_empty_and_zero_singleton :
    mk_result_level true [] = mk_level_one
    ∧ mk_result_level false [] = mk_level_zero
    ∧ mk_result_level true [mk_level_zero] = mk_level_one
    ∧ mk_result_level false [mk_level_zero] = mk_level_zero :=
  ⟨rfl, rfl, rfl, rfl⟩

/-- Claim C4: evaluating the ceiling-exceeded error at the default
threshold 200.  The message does read "maximum number of iterations
exceeded" and does state the current threshold, but it directs the user
to option `rewrite.max_iter`, which is NOT the name the option is
registered under (`rewriter.max_iter`): setting the named option has no
effect on the ceiling. -/
theorem max_iter_message_names_unregistered_option :
    throw_max_iter_exceeded_message 200
      = "rewrite tactic failed, maximum number of iterations exceeded (current threshold: 200, increase the threshold by setting option \x27rewrite.max_iter\x27)"
    ∧ message_option_name ≠ registered_max_iter_option_name :=
  ⟨rfl, by decide⟩

/-- Claim C7 counterexample: the instance-id counter is a machine
unsigned; after 2^32 mints it wraps, so the 0-th and the 2^32-th
`mk_let_value` calls of a process — two separate calls — produce nodes
that compare EQUAL, refuting "never equal" in full generality. -/
theorem let_value_wraparound_cex :
    let_value_expr_eq (mk_let_value 0 (expr.var 0)) (mk_let_value unsigned_card (expr.var 0)) = true
    ∧ (0 : Nat) ≠ unsigned_card := by
  constructor
  · decide
  · decide

/-- Claim C7 (amended): let-value equality is nominal — every node is
equal to itself, and nodes minted by two separate `mk_let_value` calls
are never equal whenever the calls' positions in the process's mint
sequence are not congruent modulo 2^32 (in particular any two distinct
calls among the first 2^32 mints), even when they wrap the identical
sub-term; only after the unsigned id counter wraps around can two
distinct calls collide. -/
theorem let_value_eq_nominal :
    (∀ m : let_value_expr, let_value_expr_eq m m = true)
    ∧ (∀ (i j : Nat) (e1 e2 : expr), i % unsigned_card ≠ j % unsigned_card →
        let_value_expr_eq (mk_let_value i e1) (mk_let_value j e2) = false) := by
  constructor
  · intro m
    simp [let_value_expr_eq, let_value_cell_eq]
  · intro i j e1 e2 h
    simp [let_value_expr_eq, let_value_cell_eq, mk_let_value, next_let_value_id]
    intro hid
    exact absurd hid h

/-- Claim C7 witness: two consecutive mints wrapping the same sub-term
are unequal. -/
theorem let_value_eq_nominal_witness :
    let_value_expr_eq (mk_let_value 0 (expr.var 1)) (mk_let_value 1 (expr.var 1)) = false :=
  let_value_eq_nominal.2 0 1 (expr.var 1) (expr.var 1) (by decide)

/-- Claim C6: for a single target, the unfold step's per-target `reduce`
call succeeds exactly when at least one of the named constants was
actually unfolded AND no residual constraints were produced; with the
empty unfold-name list (the plain reduce step) it succeeds exactly when
no residual constraints were produced, with no unfolding requirement. -/
theorem reduce_success_conditions (nrm : normalizer) (e : expr) :
    (∀ to_unfold : List String, to_unfold ≠ [] →
      ((reduce nrm e to_unfold).isSome = true ↔
        (nrm.run e to_unfold).2.1 = true ∧ (nrm.run e to_unfold).2.2 = false))
    ∧ ((reduce nrm e []).isSome = true ↔ (nrm.run e []).2.2 = false) := by
  constructor
  · intro tu htu
    have hemp : tu.isEmpty = false := by
      cases tu with
      | nil => exact absurd rfl htu
      | cons a as => rfl
    cases h1 : (nrm.run e tu).2.1 <;> cases h2 : (nrm.run e tu).2.2 <;>
      simp [reduce, hemp, h1, h2]
  · cases h2 : (nrm.run e []).2.2 <;> simp [reduce, h2]

def reduce_witness_normalizer : normalizer :=
  { run := fun e _ => (e, true, false) }

/-- Claim C6 witness: the success condition evaluated at a concrete
normalizer and a one-element unfold list. -/
theorem reduce_success_conditions_witness :
    (reduce reduce_witness_normalizer (expr.var 0) ["f"]).isSome = true ↔
      ((reduce_witness_normalizer.run (expr.var 0) ["f"]).2.1 = true
        ∧ (reduce_witness_normalizer.run (expr.var 0) ["f"]).2.2 = false) :=
  (reduce_success_conditions reduce_witness_normalizer (expr.var 0)).1 ["f"] (by simp)

/-- Claim C10: invoking the rewrite tactic on a proof state with an
empty goal list executes no step at all (the result is independent of
the rewrite engine) and raises the no-goal error exactly when failure
reporting is enabled for the proof state, yielding the empty
successor-state sequence otherwise; the input proof state value is
untouched. -/
theorem mk_rewrite_tactic_empty_goals {σ : Type}
    (run run' : proof_state σ → tactic_seq_result σ) (s : proof_state σ)
    (h : s.goals = []) :
    mk_rewrite_tactic run s
        = (if s.report_failure then tactic_seq_result.no_goal_error
           else tactic_seq_result.states [])
    ∧ mk_rewrite_tactic run s = mk_rewrite_tactic run' s := by
  unfold mk_rewrite_tactic
  rw [h]
  simp

def c10_state : proof_state Unit :=
  { goals := [], report_failure := true }

/-- Claim C10 witness: the empty-goal behavior evaluated at a concrete
proof state with reporting enabled and two different engine stand-ins. -/
theorem mk_rewrite_tactic_empty_goals_witness :
    mk_rewrite_tactic (fun _ => tactic_seq_result.no_goal_error) c10_state
        = (if c10_state.report_failure then tactic_seq_result.no_goal_error
           else tactic_seq_result.states [])
    ∧ mk_rewrite_tactic (fun _ => tactic_seq_result.no_goal_error) c10_state
        = mk_rewrite_tactic (fun _ => tactic_seq_result.states []) c10_state :=
  mk_rewrite_tactic_empty_goals _ _ c10_state rfl

theorem mk_app_list_append (f : expr) (as : List expr) (a : expr) :
    mk_app_list f (as ++ [a]) = expr.app (mk_app_list f as) a := by
  simp [mk_app_list]

theorem get_app_args_aux_mk_app_list (f : expr) (hf : is_app f = false) :
    ∀ (args acc : List expr),
      get_app_args_aux (mk_app_list f args) acc = (f, args ++ acc) := by
  intro args
  induction args using List.reverseRecOn with
  | nil =>
    intro acc
    cases f <;> simp_all [mk_app_list, get_app_args_aux, is_app]
  | append_singleton as a ih =>
    intro acc
    rw [mk_app_list_append]
    rw [show get_app_args_aux (expr.app (mk_app_list f as) a) acc
          = get_app_args_aux (mk_app_list f as) (a :: acc) from rfl]
    rw [ih (a :: acc)]
    simp

theorem is_app_mk_app_list_cons (f a : expr) :
    ∀ as : List expr, is_app (mk_app_list f (a :: as)) = true := by
  intro as
  induction as generalizing f a with
  | nil => rfl
  | cons b bs ih => exact ih (expr.app f a) b

/-- Claim C5 (amended): `is_local_ref` returns true on
`mk_local_ref(n, ls, ps)` for every NONEMPTY list `ps` of local
constants; for the empty list the as-atomic argument of the built term
is the bare explicit-marked constant — not an application — and
`is_local_ref` rejects it. -/
theorem is_local_ref_mk_local_ref (n : String) (ls : List level) (ps : List expr)
    (hne : ps ≠ []) (hloc : ∀ x ∈ ps, is_local x = true) :
    is_local_ref (mk_local_ref n ls ps) = true := by
  obtain ⟨a, as, rfl⟩ : ∃ a as, ps = a :: as := by
    cases ps with
    | nil => exact absurd rfl hne
    | cons a as => exact ⟨a, as, rfl⟩
  have hspine : get_app_args (mk_app_list (expr.explicit_mark (expr.const n ls))
      ((a :: as).map expr.explicit_mark))
      = (expr.explicit_mark (expr.const n ls), (a :: as).map expr.explicit_mark) := by
    rw [get_app_args, get_app_args_aux_mk_app_list (expr.explicit_mark (expr.const n ls)) rfl]
    simp
  have happ := is_app_mk_app_list_cons (expr.explicit_mark (expr.const n ls))
    (expr.explicit_mark a) (as.map expr.explicit_mark)
  rw [mk_local_ref, is_local_ref]
  simp only [is_as_atomic, Bool.not_true, if_false, get_as_atomic_arg, Bool.false_eq_true]
  rw [show (a :: as).map expr.explicit_mark
        = expr.explicit_mark a :: as.map expr.explicit_mark from rfl] at hspine ⊢
  rw [happ, hspine]
  simp only [Bool.not_true, if_false, is_explicit, get_explicit_arg, is_constant,
    Bool.true_and, Bool.false_eq_true]
  rw [List.all_cons]
  simp only [is_explicit, get_explicit_arg, Bool.true_and]
  have ha : is_local a = true := hloc a (by simp)
  rw [ha]
  simp only [Bool.true_and]
  rw [List.all_map]
  apply List.all_eq_true.mpr
  intro x hx
  simp only [Function.comp, is_explicit, get_explicit_arg, Bool.true_and]
  exact hloc x (by simp [hx])

/-- Claim C5 counterexample: with the empty context-parameter list,
`is_local_ref` rejects the very term `mk_local_ref` builds (its
as-atomic argument is not an application). -/
theorem is_local_ref_mk_local_ref_empty_cex :
    is_local_ref (mk_local_ref "x" [] []) = false := rfl

/-- Claim C5 witness: the amended statement at a concrete name and a
one-element parameter list. -/
theorem is_local_ref_mk_local_ref_witness :
    is_local_ref (mk_local_ref "x" [] [expr.local_const "a"]) = true :=
  is_local_ref_mk_local_ref "x" [] [expr.local_const "a"] (by simp)
    (by intro x hx; simp at hx; subst hx; rfl)

theorem rw_for_all_some {σ : Type} (step : σ → Option σ)
    (h : ∀ t, (step t).isSome = true) :
    ∀ (n : Nat) (s : σ), ∃ s', rw_for step n s = Sum.inl s' := by
  intro n
  induction n with
  | zero => intro s; exact ⟨s, rfl⟩
  | succ k ih =>
    intro s
    cases hs : step s with
    | none =>
      have := h s
      rw [hs] at this
      simp at this
    | some s1 =>
      obtain ⟨s', h'⟩ := ih s1
      exact ⟨s', by simp [rw_for, hs, h']⟩

/-- Claim C1 (amended): for an element step in which every single-step
application succeeds, AtMostN(n) succeeds once the count n is reached
ONLY when n is strictly below the iteration ceiling; when n reaches or
exceeds the ceiling the loop epilogue's `check_max_iter` raises the
ceiling-exceeded error for AtMostN exactly as it does for ExactlyN (for
which the claim correctly states the hard error even though its own
count was never exceeded). -/
theorem at_most_n_exactly_n_ceiling {σ : Type} (step : σ → Option σ)
    (num max_iter : Nat) (s : σ) (hall : ∀ t, (step t).isSome = true) :
    (num < max_iter →
      (∃ s', process_rewrite_step step multiplicity.AtMostN num max_iter s
              = step_res.ret true s')
      ∧ (∃ s', process_rewrite_step step multiplicity.ExactlyN num max_iter s
              = step_res.ret true s'))
    ∧ (max_iter ≤ num →
      process_rewrite_step step multiplicity.AtMostN num max_iter s
          = step_res.max_iter_exceeded
      ∧ process_rewrite_step step multiplicity.ExactlyN num max_iter s
          = step_res.max_iter_exceeded) := by
  obtain ⟨s', hs'⟩ := rw_for_all_some step hall (min num max_iter) s
  constructor
  · intro hlt
    have hnt : check_max_iter_throws (min num max_iter) max_iter = false := by
      simp [check_max_iter_throws]
      omega
    constructor
    · exact ⟨s', by simp [process_rewrite_step, hs', hnt]⟩
    · exact ⟨s', by simp [process_rewrite_step, hs', hnt]⟩
  · intro hge
    have hth : check_max_iter_throws (min num max_iter) max_iter = true := by
      simp [check_max_iter_throws]
      omega
    constructor
    · simp [process_rewrite_step, hs', hth]
    · simp [process_rewrite_step, hs', hth]

/-- Claim C1 counterexample: AtMostN(200) under the default ceiling 200
with every application succeeding raises the ceiling-exceeded error
instead of succeeding once the count is reached. -/
theorem at_most_n_ceiling_cex :
    process_rewrite_step (fun _ : Unit => some ()) multiplicity.AtMostN 200 200 ()
        = step_res.max_iter_exceeded
    ∧ process_rewrite_step (fun _ : Unit => some ()) multiplicity.AtMostN 200 200 ()
        ≠ step_res.ret true () := by
  have h : process_rewrite_step (fun _ : Unit => some ()) multiplicity.AtMostN 200 200 ()
      = step_res.max_iter_exceeded := by decide
  exact ⟨h, by simp [h]⟩

/-- Claim C1 witness: the amended dichotomy evaluated with an
always-succeeding application, count 2 and ceiling 5. -/
theorem at_most_n_exactly_n_ceiling_witness :
    (2 < 5 →
      (∃ s', process_rewrite_step (fun _ : Unit => some ()) multiplicity.AtMostN 2 5 ()
              = step_res.ret true s')
      ∧ (∃ s', process_rewrite_step (fun _ : Unit => some ()) multiplicity.ExactlyN 2 5 ()
              = step_res.ret true s'))
    ∧ (5 ≤ 2 →
      process_rewrite_step (fun _ : Unit => some ()) multiplicity.AtMostN 2 5 ()
          = step_res.max_iter_exceeded
      ∧ process_rewrite_step (fun _ : Unit => some ()) multiplicity.ExactlyN 2 5 ()
          = step_res.max_iter_exceeded) :=
  at_most_n_exactly_n_ceiling (fun _ : Unit => some ()) 2 5 () (fun _ => rfl)

theorem rw_for_early_exit {σ : Type} (step : σ → Option σ) :
    ∀ (m r : Nat) (s0 sm : σ), m < r →
      iterate_step step m s0 = some sm → step sm = none →
      rw_for step r s0 = Sum.inr sm := by
  intro m
  induction m with
  | zero =>
    intro r s0 sm hr hit hf
    cases r with
    | zero => omega
    | succ k =>
      rw [show iterate_step step 0 s0 = some s0 from rfl] at hit
      rw [Option.some_inj] at hit
      subst hit
      simp [rw_for, hf]
  | succ k ih =>
    intro r s0 sm hr hit hf
    cases r with
    | zero => omega
    | succ r' =>
      cases hs : step s0 with
      | none =>
        rw [show iterate_step step (k + 1) s0
              = (match step s0 with
                 | some s1 => iterate_step step k s1
                 | none => none) from rfl, hs] at hit
        simp at hit
      | some s1 =>
        rw [show iterate_step step (k + 1) s0
              = (match step s0 with
                 | some s1 => iterate_step step k s1
                 | none => none) from rfl, hs] at hit
        have : rw_for step (r' + 1) s0 = rw_for step r' s1 := by
          simp [rw_for, hs]
        rw [this]
        exact ih r' s1 sm (by omega) hit hf

/-- Claim C2 (amended): an ExactlyN(n) step achieving only m < n
successful applications fails as a whole, and the thrown tactic-failure
exception carries the proof state AT THE POINT OF FAILURE — rebuilt from
the working goal and substitution after the m successful applications —
not the pre-step state; the input proof-state value itself is unchanged
(states are threaded by value). -/
theorem exactly_n_partial_failure_state {σ : Type} (step : σ → Option σ)
    (num max_iter m : Nat) (s0 sm : σ)
    (hmn : m < num) (hmi : m < max_iter)
    (hit : iterate_step step m s0 = some sm) (hf : step sm = none) :
    rewrite_tac_steps true
        [fun s => process_rewrite_step step multiplicity.ExactlyN num max_iter s] s0
      = tactic_result.failed_exception sm := by
  have hr : rw_for step (min num max_iter) s0 = Sum.inr sm :=
    rw_for_early_exit step m (min num max_iter) s0 sm (by omega) hit hf
  simp [rewrite_tac_steps, process_rewrite_step, hr]

def c2_step (n : Nat) : Option Nat :=
  if n < 2 then some (n + 1) else none

/-- Claim C2 counterexample: ExactlyN(3) where only two applications are
possible (working state counts successful applications, starting from 0):
the exception carries state 2 — the two successful applications are
visible in it — not the pre-step state 0 the claim asserts. -/
theorem exactly_n_pre_step_state_cex :
    rewrite_tac_steps true
        [fun s => process_rewrite_step c2_step multiplicity.ExactlyN 3 200 s] 0
      = tactic_result.failed_exception 2
    ∧ tactic_result.failed_exception 2
        ≠ (tactic_result.failed_exception 0 : tactic_result Nat) := by
  constructor
  · decide
  · decide

def c2_witness_step (n : Nat) : Option Nat :=
  if n < 1 then some (n + 1) else none

/-- Claim C2 witness: the amended statement at a concrete oracle
succeeding once, ExactlyN(2), ceiling 9. -/
theorem exactly_n_partial_failure_state_witness :
    rewrite_tac_steps true
        [fun s => process_rewrite_step c2_witness_step multiplicity.ExactlyN 2 9 s] 0
      = tactic_result.failed_exception 1 :=
  exactly_n_partial_failure_state c2_witness_step 2 9 1 0 1 (by omega) (by omega)
    (by decide) (by decide)

theorem sort_insert_perm (lt : expr → expr → Bool) (a : expr) :
    ∀ l : List expr, (sort_insert lt a l).Perm (a :: l) := by
  intro l
  induction l with
  | nil => simp [sort_insert]
  | cons b bs ih =>
    by_cases h : lt b a = true
    · rw [show sort_insert lt a (b :: bs) = b :: sort_insert lt a bs by simp [sort_insert, h]]
      exact (ih.cons b).trans (List.Perm.swap a b bs)
    · rw [show sort_insert lt a (b :: bs) = a :: b :: bs by
        simp [sort_insert]
        intro hc
        exact absurd hc h]

theorem sort_insert_mem (lt : expr → expr → Bool) (a x : expr) (l : List expr)
    (hx : x ∈ sort_insert lt a l) : x = a ∨ x ∈ l := by
  have := (sort_insert_perm lt a l).mem_iff.mp hx
  simpa using this

theorem sort_locals_before_asymm (p : parser_ctx) (a b : expr)
    (h : sort_locals_before p a b = true) : sort_locals_before p b a = false := by
  unfold sort_locals_before at h ⊢
  cases hva : p.is_local_variable a <;> cases hvb : p.is_local_variable b <;>
    simp_all <;> omega

theorem sort_locals_before_neg_trans (p : parser_ctx) (a b c : expr)
    (hba : sort_locals_before p b a = false) (hcb : sort_locals_before p c b = false) :
    sort_locals_before p c a = false := by
  unfold sort_locals_before at hba hcb ⊢
  cases hva : p.is_local_variable a <;> cases hvb : p.is_local_variable b <;>
    cases hvc : p.is_local_variable c <;> simp_all <;> omega

theorem sort_insert_pairwise (p : parser_ctx) (a : expr) :
    ∀ l : List expr,
      l.Pairwise (fun x y => sort_locals_before p y x = false) →
      (sort_insert (sort_locals_before p) a l).Pairwise
        (fun x y => sort_locals_before p y x = false) := by
  intro l
  induction l with
  | nil => intro _; simp [sort_insert]
  | cons b bs ih =>
    intro hp
    rw [List.pairwise_cons] at hp
    obtain ⟨hb, hbs⟩ := hp
    by_cases h : sort_locals_before p b a = true
    · rw [show sort_insert (sort_locals_before p) a (b :: bs)
            = b :: sort_insert (sort_locals_before p) a bs by simp [sort_insert, h]]
      rw [List.pairwise_cons]
      constructor
      · intro x hx
        rcases sort_insert_mem (sort_locals_before p) a x bs hx with hxa | hxl
        · subst hxa
          exact sort_locals_before_asymm p b x h
        · exact hb x hxl
      · exact ih hbs
    · have h' : sort_locals_before p b a = false := by
        cases hval : sort_locals_before p b a
        · rfl
        · exact absurd hval h
      rw [show sort_insert (sort_locals_before p) a (b :: bs) = a :: b :: bs by
        simp [sort_insert]
        intro hc
        exact absurd hc h]
      rw [List.pairwise_cons]
      constructor
      · intro x hx
        rcases List.mem_cons.mp hx with hxb | hxl
        · subst hxb
          exact h'
        · exact sort_locals_before_neg_trans p a b x h' (hb x hxl)
      · rw [List.pairwise_cons]
        exact ⟨hb, hbs⟩

theorem insertion_sort_perm (lt : expr → expr → Bool) :
    ∀ l : List expr, (insertion_sort lt l).Perm l := by
  intro l
  induction l with
  | nil => simp [insertion_sort]
  | cons a as ih => exact (sort_insert_perm lt a _).trans (ih.cons a)

theorem insertion_sort_pairwise (p : parser_ctx) :
    ∀ l : List expr,
      (insertion_sort (sort_locals_before p) l).Pairwise
        (fun x y => sort_locals_before p y x = false) := by
  intro l
  induction l with
  | nil => simp [insertion_sort]
  | cons a as ih => exact sort_insert_pairwise p a _ ih

/-- Claim C3 (amended): `sort_locals` keeps exactly the input locals
declared in the parser's local table (its output is a permutation of the
declared-filter of the input sequence) and orders them with every
ORDINARY (non-variable) local before every section/context variable —
the opposite grouping of the claim — each of the two groups internally
in ascending declaration-index order. -/
theorem sort_locals_spec (locals : List expr) (p : parser_ctx) :
    (sort_locals locals p).Perm (locals.filter p.is_local_decl)
    ∧ (sort_locals locals p).Pairwise (fun x y =>
        (p.is_local_variable x = true → p.is_local_variable y = true)
        ∧ (p.is_local_variable x = p.is_local_variable y →
            p.get_local_index x ≤ p.get_local_index y)) := by
  constructor
  · exact insertion_sort_perm _ _
  · refine (insertion_sort_pairwise p _).imp ?_
    intro x y hxy
    unfold sort_locals_before at hxy
    constructor
    · intro hx
      cases hy : p.is_local_variable y
      · rw [hx, hy] at hxy
        simp at hxy
      · rfl
    · intro hg
      rw [hg] at hxy
      cases hy : p.is_local_variable y <;> rw [hy] at hxy <;> simp at hxy <;> omega

def c3_pctx : parser_ctx :=
  { is_local_decl := fun _ => true
  , is_local_variable := fun e => decide (e = expr.local_const "a")
  , get_local_index := fun e => if e = expr.local_const "a" then 0 else 1 }

/-- Claim C3 counterexample: with section variable `a` (declaration
index 0) and ordinary local `b` (index 1), both declared, `sort_locals`
returns the ordinary local FIRST — `[b, a]` — whereas the claimed
ordering (variables before ordinary locals) would give `[a, b]`. -/
theorem sort_locals_variables_first_cex :
    sort_locals [expr.local_const "a", expr.local_const "b"] c3_pctx
        = [expr.local_const "b", expr.local_const "a"]
    ∧ c3_pctx.is_local_variable (expr.local_const "b") = false
    ∧ c3_pctx.is_local_variable (expr.local_const "a") = true := by
  refine ⟨by decide, by decide, by decide⟩

end Lean2
